import Mathlib

/-!
Verification of the crawler backend's identifier-generation and
slug-uniqueness core, embedded shallowly from
`src/crawler_server/src/utils/slugify.ts` (the `SnowflakeIdGenerator`
class and the slug helpers) and
`src/crawler_server/src/services/CrawlSite.service.ts` (the bounded
slug-retry loops).

JavaScript `bigint` values are embedded as `ℤ`; the wall clock
(`Date.now()`) is passed in explicitly, as a list of the successive
values the program would sample.
-/

deriving instance DecidableEq for Except

namespace Crawler

/-! ### SnowflakeIdGenerator (slugify.ts, lines 52-125) -/

/-- `private readonly epoch = 1609459200000n` (2021-01-01T00:00:00Z in ms). -/
def epoch : ℤ := 1609459200000

/-- `private readonly datacenterIdBits = 5n`. -/
def datacenterIdBits : ℤ := 5

/-- `private readonly workerIdBits = 5n`. -/
def workerIdBits : ℤ := 5

/-- `private readonly sequenceBits = 12n`. -/
def sequenceBits : ℤ := 12

/-- `maxDatacenterId = (1n << datacenterIdBits) - 1n`. -/
def maxDatacenterId : ℤ := (1 <<< datacenterIdBits) - 1

/-- `maxWorkerId = (1n << workerIdBits) - 1n`. -/
def maxWorkerId : ℤ := (1 <<< workerIdBits) - 1

/-- `maxSequence = (1n << sequenceBits) - 1n`. -/
def maxSequence : ℤ := (1 <<< sequenceBits) - 1

/-- `workerIdShift = sequenceBits`. -/
def workerIdShift : ℤ := sequenceBits

/-- `datacenterIdShift = sequenceBits + workerIdBits`. -/
def datacenterIdShift : ℤ := sequenceBits + workerIdBits

/-- `timestampLeftShift = sequenceBits + workerIdBits + datacenterIdBits`. -/
def timestampLeftShift : ℤ := sequenceBits + workerIdBits + datacenterIdBits

/-- The immutable configuration a `SnowflakeIdGenerator` instance carries
after a successful construction. -/
structure SnowflakeIdGenerator where
  datacenterId : ℤ
  workerId : ℤ
  deriving DecidableEq, Repr

/-- The constructor of `SnowflakeIdGenerator`: validates both ids against
their bit-width bounds and throws (returns `.error`) on an out-of-range
value. -/
def SnowflakeIdGenerator.mk? (datacenterId workerId : ℤ) :
    Except String SnowflakeIdGenerator :=
  if datacenterId < 0 ∨ datacenterId > maxDatacenterId then
    .error "Datacenter ID must be 0 - 31"
  else if workerId < 0 ∨ workerId > maxWorkerId then
    .error "Worker ID must be 0 - 31"
  else
    .ok ⟨datacenterId, workerId⟩

/-- The mutable fields `private sequence = 0n; private lastTimestamp = -1n`. -/
structure GenState where
  sequence : ℤ
  lastTimestamp : ℤ
  deriving DecidableEq, Repr

/-- The state of a freshly constructed generator. -/
def initState : GenState := ⟨0, -1⟩

/-- Failure modes of `generate()`. `clockMovedBackwards` is the thrown
`Error('Clock moved backwards')`; `clockExhausted` marks a run of the
model whose finite list of clock samples ran out (the real code would
keep sampling `Date.now()`). -/
inductive GenError where
  | clockMovedBackwards
  | clockExhausted
  deriving DecidableEq, Repr

/-- `private waitNextMillis(lastTimestamp)`: repeatedly sample the clock
until the sample strictly exceeds `lastTimestamp`; returns that sample
and the unconsumed rest of the clock trace. -/
def waitNextMillis (lastTimestamp : ℤ) : List ℤ → Option (ℤ × List ℤ)
  | [] => none
  | ts :: rest =>
      if ts ≤ lastTimestamp then waitNextMillis lastTimestamp rest
      else some (ts, rest)

/-- The id assembly in `generate()`:
`((timestamp - epoch) << timestampLeftShift) | (datacenterId << datacenterIdShift) | (workerId << workerIdShift) | sequence`. -/
def mkId (g : SnowflakeIdGenerator) (timestamp sequence : ℤ) : ℤ :=
  Int.lor
    (Int.lor
      (Int.lor
        ((timestamp - epoch) <<< timestampLeftShift)
        (g.datacenterId <<< datacenterIdShift))
      (g.workerId <<< workerIdShift))
    sequence

/-- `public generate()`: one call of the generator.  Consumes clock
samples from the front of the list (first the initial
`this.currentTimestamp()`, then any samples taken by `waitNextMillis`);
on success returns the numeric id, the updated mutable state, and the
remaining clock trace. -/
def generate (g : SnowflakeIdGenerator) (st : GenState) :
    List ℤ → Except GenError (ℤ × GenState × List ℤ)
  | [] => .error .clockExhausted
  | now :: rest =>
      if now < st.lastTimestamp then
        .error .clockMovedBackwards
      else if now = st.lastTimestamp then
        let sequence := Int.land (st.sequence + 1) maxSequence
        if sequence = 0 then
          match waitNextMillis st.lastTimestamp rest with
          | none => .error .clockExhausted
          | some (timestamp, rest') =>
              .ok (mkId g timestamp sequence, ⟨sequence, timestamp⟩, rest')
        else
          .ok (mkId g now sequence, ⟨sequence, now⟩, rest)
      else
        .ok (mkId g now 0, ⟨0, now⟩, rest)

/-- Issue up to `n` successive ids from state `st` against the clock
trace `clocks`, collecting the returned ids until an error (or the call
budget) stops the run. -/
def runGen (g : SnowflakeIdGenerator) : ℕ → GenState → List ℤ → List ℤ
  | 0, _, _ => []
  | n + 1, st, clocks =>
      match generate g st clocks with
      | .ok (id, st', clocks') => id :: runGen g n st' clocks'
      | .error _ => []

/-- Decoder: the low 12 bits of an id (the sequence field). -/
def seqField (id : ℤ) : ℤ := id % 4096

/-- Decoder: bits 12-16 of an id (the worker/member field). -/
def workerField (id : ℤ) : ℤ := (id / 4096) % 32

/-- Decoder: bits 17-21 of an id (the datacenter/group field). -/
def dcField (id : ℤ) : ℤ := (id / 131072) % 32

/-- Decoder: the bits above bit 21 of an id (the timestamp field). -/
def tsField (id : ℤ) : ℤ := id / 4194304

/-! ### Arithmetic characterization of the bit-packing -/

theorem maxSequence_eq : maxSequence = 4095 := by decide

theorem maxDatacenterId_eq : maxDatacenterId = 31 := by decide

theorem maxWorkerId_eq : maxWorkerId = 31 := by decide

/-- Packing disjoint bit fields with `|||` is addition (ℕ level). -/
theorem nat_pack (d dc w s : ℕ) (hdc : dc < 32) (hw : w < 32) (hs : s < 4096) :
    ((d <<< 22 ||| dc <<< 17) ||| w <<< 12) ||| s =
      d * 4194304 + dc * 131072 + w * 4096 + s := by
  have e22 : d <<< 22 = 2 ^ 22 * d := by rw [Nat.shiftLeft_eq]; ring
  have e17 : dc <<< 17 = 2 ^ 17 * dc := by rw [Nat.shiftLeft_eq]; ring
  have e12 : w <<< 12 = 2 ^ 12 * w := by rw [Nat.shiftLeft_eq]; ring
  have h1 : d <<< 22 ||| dc <<< 17 = 2 ^ 22 * d + 2 ^ 17 * dc := by
    rw [e22, e17, ← Nat.mul_add_lt_is_or (by omega) d]
  have h2 : (d <<< 22 ||| dc <<< 17) ||| w <<< 12 =
      2 ^ 22 * d + 2 ^ 17 * dc + 2 ^ 12 * w := by
    have hrw : 2 ^ 22 * d + 2 ^ 17 * dc = 2 ^ 17 * (32 * d + dc) := by ring
    rw [h1, e12, hrw, ← Nat.mul_add_lt_is_or (by omega) (32 * d + dc)]
  have hrw2 : 2 ^ 22 * d + 2 ^ 17 * dc + 2 ^ 12 * w =
      2 ^ 12 * (1024 * d + 32 * dc + w) := by ring
  rw [h2, hrw2, ← Nat.mul_add_lt_is_or (by omega) (1024 * d + 32 * dc + w)]
  ring

theorem int_lor_coe (m n : ℕ) : Int.lor (↑m) (↑n) = ↑(m ||| n) := rfl

theorem int_land_coe (m n : ℕ) : Int.land (↑m) (↑n) = ↑(m &&& n) := rfl

/-- For in-range fields and a timestamp at or after the epoch, the id
assembly is plain positional arithmetic. -/
theorem mkId_eq (g : SnowflakeIdGenerator) (ts seq : ℤ)
    (hdc0 : 0 ≤ g.datacenterId) (hdc : g.datacenterId ≤ 31)
    (hw0 : 0 ≤ g.workerId) (hw : g.workerId ≤ 31)
    (hts : epoch ≤ ts) (hs0 : 0 ≤ seq) (hs : seq ≤ 4095) :
    mkId g ts seq =
      (ts - epoch) * 4194304 + g.datacenterId * 131072 + g.workerId * 4096 + seq := by
  obtain ⟨d, hd⟩ : ∃ d : ℕ, ts - epoch = (d : ℤ) :=
    ⟨(ts - epoch).toNat, (Int.toNat_of_nonneg (by omega)).symm⟩
  obtain ⟨dc, hdceq⟩ : ∃ dc : ℕ, g.datacenterId = (dc : ℤ) :=
    ⟨g.datacenterId.toNat, (Int.toNat_of_nonneg hdc0).symm⟩
  obtain ⟨w, hweq⟩ : ∃ w : ℕ, g.workerId = (w : ℤ) :=
    ⟨g.workerId.toNat, (Int.toNat_of_nonneg hw0).symm⟩
  obtain ⟨s, hseq⟩ : ∃ s : ℕ, seq = (s : ℤ) :=
    ⟨seq.toNat, (Int.toNat_of_nonneg hs0).symm⟩
  have hdcb : dc < 32 := by omega
  have hwb : w < 32 := by omega
  have hsb : s < 4096 := by omega
  rw [mkId, hd, hdceq, hweq, hseq]
  rw [show timestampLeftShift = ((22 : ℕ) : ℤ) from by decide,
    show datacenterIdShift = ((17 : ℕ) : ℤ) from by decide,
    show workerIdShift = ((12 : ℕ) : ℤ) from by decide]
  rw [Int.shiftLeft_coe_nat, Int.shiftLeft_coe_nat, Int.shiftLeft_coe_nat]
  rw [int_lor_coe, int_lor_coe, int_lor_coe]
  rw [nat_pack d dc w s hdcb hwb hsb]
  push_cast
  ring

/-- The sequence-mask update `(sequence + 1n) & maxSequence` is a mod by
4096 for a non-negative current sequence. -/
theorem land_seq (q : ℤ) (h0 : 0 ≤ q) :
    Int.land (q + 1) maxSequence = (q + 1) % 4096 := by
  obtain ⟨n, hn⟩ : ∃ n : ℕ, q + 1 = (n : ℤ) :=
    ⟨(q + 1).toNat, (Int.toNat_of_nonneg (by omega)).symm⟩
  rw [hn, show maxSequence = ((4095 : ℕ) : ℤ) from by decide, int_land_coe]
  have : n &&& 4095 = n % 4096 := by
    have h := Nat.and_pow_two_sub_one_eq_mod n 12
    norm_num at h
    exact h
  rw [this]
  push_cast
  ring

/-! ### Behaviour of a single `generate()` call -/

/-- What a successful `waitNextMillis` guarantees about the sample it
returns and the unconsumed trace. -/
theorem waitNextMillis_spec {last ts : ℤ} {l l' : List ℤ}
    (h : waitNextMillis last l = some (ts, l')) :
    last < ts ∧ ts ∈ l ∧ (∀ t ∈ l', t ∈ l) ∧
      (l.Pairwise (· ≤ ·) → l'.Pairwise (· ≤ ·) ∧ ∀ t ∈ l', ts ≤ t) := by
  induction l with
  | nil => simp [waitNextMillis] at h
  | cons a rest ih =>
      by_cases hc : a ≤ last
      · rw [waitNextMillis, if_pos hc] at h
        obtain ⟨h1, h2, h3, h4⟩ := ih h
        refine ⟨h1, List.mem_cons_of_mem a h2, fun t ht => List.mem_cons_of_mem a (h3 t ht), fun hp => h4 ?_⟩
        exact (List.pairwise_cons.mp hp).2
      · rw [waitNextMillis, if_neg hc] at h
        obtain ⟨rfl, rfl⟩ : a = ts ∧ rest = l' := by
          simpa using h
        refine ⟨by omega, List.mem_cons_self a rest, fun t ht => List.mem_cons_of_mem a ht, fun hp => ?_⟩
        obtain ⟨hall, hpw⟩ := List.pairwise_cons.mp hp
        exact ⟨hpw, hall⟩

/-- Everything a successful `generate()` call guarantees: the returned
id is the packing of the post-state's `(lastTimestamp, sequence)`, the
sequence stays inside its 12-bit range, the recorded timestamp is one of
the sampled clock values and never goes backwards, and (on a
never-decreasing clock trace) the unconsumed trace stays at or after it.
The final disjunction separates the same-millisecond increment from the
advance to a strictly later millisecond. -/
theorem generate_ok_spec {g : SnowflakeIdGenerator} {st : GenState}
    {clocks : List ℤ} {id : ℤ} {st' : GenState} {clocks' : List ℤ}
    (hs0 : 0 ≤ st.sequence) (hs : st.sequence ≤ 4095)
    (h : generate g st clocks = .ok (id, st', clocks')) :
    id = mkId g st'.lastTimestamp st'.sequence ∧
    0 ≤ st'.sequence ∧ st'.sequence ≤ 4095 ∧
    st'.lastTimestamp ∈ clocks ∧ (∀ t ∈ clocks', t ∈ clocks) ∧
    st.lastTimestamp ≤ st'.lastTimestamp ∧
    (clocks.Pairwise (· ≤ ·) →
      clocks'.Pairwise (· ≤ ·) ∧ ∀ t ∈ clocks', st'.lastTimestamp ≤ t) ∧
    ((st'.lastTimestamp = st.lastTimestamp ∧ st'.sequence = st.sequence + 1) ∨
      st.lastTimestamp < st'.lastTimestamp) := by
  match clocks with
  | [] => simp [generate] at h
  | now :: rest =>
      by_cases hlt : now < st.lastTimestamp
      · simp [generate, hlt] at h
      · by_cases heq : now = st.lastTimestamp
        · subst heq
          have hmask := land_seq st.sequence hs0
          by_cases hz : Int.land (st.sequence + 1) maxSequence = 0
          · match hw : waitNextMillis st.lastTimestamp rest with
            | none => simp [generate, hlt, hz, hw] at h
            | some (ts, rest') =>
                have hspec := waitNextMillis_spec hw
                simp [generate, hlt, hz, hw] at h
                obtain ⟨hid, hst, hcl⟩ := h
                subst hid; subst hst; subst hcl
                refine ⟨rfl, le_refl _, by norm_num, ?_, ?_, ?_, ?_, ?_⟩
                · exact List.mem_cons_of_mem _ hspec.2.1
                · exact fun t ht => List.mem_cons_of_mem _ (hspec.2.2.1 t ht)
                · exact le_of_lt hspec.1
                · intro hpw
                  have hrest := (List.pairwise_cons.mp hpw).2
                  exact hspec.2.2.2 hrest
                · right
                  exact hspec.1
          · simp [generate, hlt, hz] at h
            obtain ⟨hid, hst, hcl⟩ := h
            subst hid; subst hst; subst hcl
            have hseq' : Int.land (st.sequence + 1) maxSequence = st.sequence + 1 := by
              rw [hmask] at hz ⊢
              omega
            refine ⟨rfl, ?_, ?_, List.mem_cons_self _ rest,
              fun t ht => List.mem_cons_of_mem _ ht, le_refl _, ?_, ?_⟩
            · show 0 ≤ Int.land (st.sequence + 1) maxSequence
              rw [hseq']; omega
            · show Int.land (st.sequence + 1) maxSequence ≤ 4095
              rw [hseq']
              rw [hmask] at hz
              omega
            · intro hpw
              obtain ⟨hall, hrest⟩ := List.pairwise_cons.mp hpw
              exact ⟨hrest, hall⟩
            · left
              exact ⟨rfl, hseq'⟩
        · simp [generate, hlt, heq] at h
          obtain ⟨hid, hst, hcl⟩ := h
          subst hid; subst hst; subst hcl
          refine ⟨rfl, le_refl _, by norm_num, List.mem_cons_self now rest,
            fun t ht => List.mem_cons_of_mem now ht, ?_, ?_, ?_⟩
          · show st.lastTimestamp ≤ now
            omega
          · intro hpw
            obtain ⟨hall, hrest⟩ := List.pairwise_cons.mp hpw
            exact ⟨hrest, hall⟩
          · right
            show st.lastTimestamp < now
            omega

/-- The cross-call invariant of a run whose clock samples never
decrease and never fall before the epoch: the sequence is inside its
12-bit range and every clock sample still to be consumed is at or after
the recorded last issuance time. -/
def Inv (st : GenState) (clocks : List ℤ) : Prop :=
  0 ≤ st.sequence ∧ st.sequence ≤ 4095 ∧
  clocks.Pairwise (· ≤ ·) ∧
  (∀ t ∈ clocks, st.lastTimestamp ≤ t) ∧
  (∀ t ∈ clocks, epoch ≤ t)

/-- One successful call strictly increases the packed id relative to
the id the pre-state's `(lastTimestamp, sequence)` pair encodes. -/
theorem generate_ok_lt {g : SnowflakeIdGenerator} {st : GenState}
    {clocks : List ℤ} {id : ℤ} {st' : GenState} {clocks' : List ℤ}
    (hdc0 : 0 ≤ g.datacenterId) (hdc : g.datacenterId ≤ 31)
    (hw0 : 0 ≤ g.workerId) (hw : g.workerId ≤ 31)
    (hInv : Inv st clocks)
    (h : generate g st clocks = .ok (id, st', clocks'))
    (hprev : epoch ≤ st.lastTimestamp) :
    mkId g st.lastTimestamp st.sequence < id := by
  obtain ⟨hs0, hs, hpw, hge, hep⟩ := hInv
  obtain ⟨hid, hs0', hs', hmem, hsub, hle, hcond, hcase⟩ := generate_ok_spec hs0 hs h
  have hepoch' : epoch ≤ st'.lastTimestamp := hep _ hmem
  rw [hid, mkId_eq g _ _ hdc0 hdc hw0 hw hprev hs0 hs,
    mkId_eq g _ _ hdc0 hdc hw0 hw hepoch' hs0' hs']
  rcases hcase with ⟨hts, hsq⟩ | hlt
  · rw [hts, hsq]
    omega
  · omega

/-- Along any monotone clock trace that stays at or after the epoch,
the ids issued by successive `generate()` calls form a strictly
increasing chain (and all exceed the id encoded by the starting state,
when that state records a post-epoch issuance). -/
theorem runGen_chain {g : SnowflakeIdGenerator}
    (hdc0 : 0 ≤ g.datacenterId) (hdc : g.datacenterId ≤ 31)
    (hw0 : 0 ≤ g.workerId) (hw : g.workerId ≤ 31) :
    ∀ (n : ℕ) (st : GenState) (clocks : List ℤ), Inv st clocks →
      List.Chain' (· < ·) (runGen g n st clocks) ∧
      (epoch ≤ st.lastTimestamp →
        ∀ y ∈ (runGen g n st clocks).head?,
          mkId g st.lastTimestamp st.sequence < y) := by
  intro n
  induction n with
  | zero => intro st clocks _; simp [runGen]
  | succ n ih =>
      intro st clocks hInv
      obtain ⟨hs0, hs, hpw, hge, hep⟩ := hInv
      match hgen : generate g st clocks with
      | .error e => simp [runGen, hgen]
      | .ok (id, st', clocks') =>
          obtain ⟨hid, hs0', hs', hmem, hsub, hle, hcond, hcase⟩ :=
            generate_ok_spec hs0 hs hgen
          obtain ⟨hpw', hge'⟩ := hcond hpw
          have hInv' : Inv st' clocks' :=
            ⟨hs0', hs', hpw', hge', fun t ht => hep t (hsub t ht)⟩
          have hepoch' : epoch ≤ st'.lastTimestamp := hep _ hmem
          obtain ⟨ihchain, ihhead⟩ := ih st' clocks' hInv'
          have hstep : ∀ y ∈ (runGen g n st' clocks').head?, id < y := by
            intro y hy
            rw [hid]
            exact ihhead hepoch' y hy
          constructor
          · simp only [runGen, hgen]
            exact List.chain'_cons'.mpr ⟨hstep, ihchain⟩
          · intro hpre y hy
            simp only [runGen, hgen, List.head?_cons, Option.mem_def,
              Option.some.injEq] at hy
            subst hy
            exact generate_ok_lt hdc0 hdc hw0 hw ⟨hs0, hs, hpw, hge, hep⟩ hgen hpre

/-- C1: for every sequence of successive `generate()` calls on a single
`SnowflakeIdGenerator` instance during which the sampled clock never
decreases (and, per §4.1 of the design, stays at or after the epoch for
the lifetime of the deployment), the returned identifiers, read as
integers, are strictly increasing in issuance order. -/
theorem snowflake_ids_strictly_increasing (g : SnowflakeIdGenerator)
    (n : ℕ) (clocks : List ℤ)
    (hdc0 : 0 ≤ g.datacenterId) (hdc : g.datacenterId ≤ 31)
    (hw0 : 0 ≤ g.workerId) (hw : g.workerId ≤ 31)
    (hpw : clocks.Pairwise (· ≤ ·)) (hep : ∀ t ∈ clocks, epoch ≤ t) :
    List.Chain' (· < ·) (runGen g n initState clocks) := by
  have hInv : Inv initState clocks := by
    refine ⟨by decide, by decide, hpw, fun t ht => ?_, hep⟩
    have h1 := hep t ht
    have h2 : initState.lastTimestamp ≤ epoch := by decide
    omega
  exact (runGen_chain hdc0 hdc hw0 hw n initState clocks hInv).1

theorem snowflake_ids_strictly_increasing_witness :
    List.Chain' (· < ·)
      (runGen ⟨1, 1⟩ 3 initState [epoch, epoch, epoch + 1]) :=
  snowflake_ids_strictly_increasing ⟨1, 1⟩ 3 [epoch, epoch, epoch + 1]
    (by decide) (by decide) (by decide) (by decide) (by decide) (by decide)

/-- C2: a `generate()` call that samples a current time strictly earlier
than the recorded last issuance timestamp fails with the
clock-regression error and returns no identifier. -/
theorem generate_clock_regression (g : SnowflakeIdGenerator)
    (st : GenState) (now : ℤ) (rest : List ℤ)
    (h : now < st.lastTimestamp) :
    generate g st (now :: rest) = .error .clockMovedBackwards := by
  simp [generate, h]

theorem generate_clock_regression_witness :
    generate ⟨1, 1⟩ ⟨0, epoch + 5⟩ [epoch + 4, epoch + 9] =
      .error .clockMovedBackwards :=
  generate_clock_regression ⟨1, 1⟩ ⟨0, epoch + 5⟩ (epoch + 4) [epoch + 9]
    (by decide)

/-- For in-range fields, the decoded timestamp field of a packed id is
the millisecond delta from the epoch. -/
theorem tsField_mkId (g : SnowflakeIdGenerator) (ts seq : ℤ)
    (hdc0 : 0 ≤ g.datacenterId) (hdc : g.datacenterId ≤ 31)
    (hw0 : 0 ≤ g.workerId) (hw : g.workerId ≤ 31)
    (hts : epoch ≤ ts) (hs0 : 0 ≤ seq) (hs : seq ≤ 4095) :
    tsField (mkId g ts seq) = ts - epoch := by
  rw [mkId_eq g ts seq hdc0 hdc hw0 hw hts hs0 hs]
  unfold tsField
  omega

/-- C6: when `generate()` is called in the same millisecond as the
previous call and the 12-bit sequence counter wraps to zero, the
generator waits for a strictly later millisecond, so the returned
identifier's timestamp field strictly exceeds the previous identifier's
timestamp field. -/
theorem generate_sequence_wrap_waits (g : SnowflakeIdGenerator)
    (st : GenState) (rest : List ℤ) (id : ℤ) (st' : GenState)
    (clocks' : List ℤ)
    (hdc0 : 0 ≤ g.datacenterId) (hdc : g.datacenterId ≤ 31)
    (hw0 : 0 ≤ g.workerId) (hw : g.workerId ≤ 31)
    (hseq : st.sequence = 4095) (hlast : epoch ≤ st.lastTimestamp)
    (h : generate g st (st.lastTimestamp :: rest) = .ok (id, st', clocks')) :
    st.lastTimestamp < st'.lastTimestamp ∧
    tsField (mkId g st.lastTimestamp st.sequence) < tsField id := by
  have hs0 : 0 ≤ st.sequence := by omega
  have hs : st.sequence ≤ 4095 := by omega
  obtain ⟨hid, hs0', hs', hmem, _, _, _, hcase⟩ := generate_ok_spec hs0 hs h
  have hlt : st.lastTimestamp < st'.lastTimestamp := by
    rcases hcase with ⟨_, hsq⟩ | hlt
    · omega
    · exact hlt
  refine ⟨hlt, ?_⟩
  rw [hid, tsField_mkId g _ _ hdc0 hdc hw0 hw hlast hs0 hs,
    tsField_mkId g _ _ hdc0 hdc hw0 hw (by omega) hs0' hs']
  omega

theorem generate_sequence_wrap_waits_witness :
    (epoch : ℤ) < epoch + 1 ∧
    tsField (mkId ⟨1, 1⟩ epoch 4095) < tsField 4329472 :=
  generate_sequence_wrap_waits ⟨1, 1⟩ ⟨4095, epoch⟩ [epoch + 1] 4329472
    ⟨0, epoch + 1⟩ [] (by decide) (by decide) (by decide) (by decide) rfl
    (by decide) (by decide)

/-- C7: with the epoch fixed at 2021-01-01T00:00:00Z, datacenterId 1 and
workerId 1, a first `generate()` call at a clock exactly 10 ms after the
epoch (sequence starting at 0) returns 42078208: the low 12 bits are 0,
the next 5 bits are 1, the next 5 bits are 1, and the remaining top bits
equal 10. -/
theorem generate_concrete_layout :
    generate ⟨1, 1⟩ initState [epoch + 10] =
      .ok (42078208, ⟨0, epoch + 10⟩, []) ∧
    seqField 42078208 = 0 ∧ workerField 42078208 = 1 ∧
    dcField 42078208 = 1 ∧ tsField 42078208 = 10 := by decide

/-- C8: decoding any identifier returned by `generate()` on a generator
that was constructed successfully — taking bits 17-21 and bits 12-16 of
its integer value — recovers exactly the datacenterId and workerId
passed at construction. -/
theorem generated_id_decodes_node_identity
    (dcIn wIn : ℤ) (g : SnowflakeIdGenerator)
    (hg : SnowflakeIdGenerator.mk? dcIn wIn = .ok g)
    (st : GenState) (clocks : List ℤ) (id : ℤ) (st' : GenState)
    (clocks' : List ℤ)
    (hs0 : 0 ≤ st.sequence) (hs : st.sequence ≤ 4095)
    (hep : ∀ t ∈ clocks, epoch ≤ t)
    (h : generate g st clocks = .ok (id, st', clocks')) :
    dcField id = dcIn ∧ workerField id = wIn := by
  have hgspec : g.datacenterId = dcIn ∧ g.workerId = wIn ∧
      0 ≤ dcIn ∧ dcIn ≤ 31 ∧ 0 ≤ wIn ∧ wIn ≤ 31 := by
    unfold SnowflakeIdGenerator.mk? at hg
    rw [maxDatacenterId_eq, maxWorkerId_eq] at hg
    split_ifs at hg with h1 h2
    injection hg with hgeq
    subst hgeq
    exact ⟨rfl, rfl, by omega, by omega, by omega, by omega⟩
  obtain ⟨hgdc, hgw, hdc0, hdc31, hw0, hw31⟩ := hgspec
  obtain ⟨hid, hs0', hs', hmem, _, _, _, _⟩ := generate_ok_spec hs0 hs h
  have hepoch' : epoch ≤ st'.lastTimestamp := hep _ hmem
  rw [hid, mkId_eq g _ _ (by omega) (by omega) (by omega) (by omega)
    hepoch' hs0' hs']
  unfold dcField workerField
  rw [hgdc, hgw]
  omega

theorem generated_id_decodes_node_identity_witness :
    dcField 42078208 = 1 ∧ workerField 42078208 = 1 :=
  generated_id_decodes_node_identity 1 1 ⟨1, 1⟩ (by decide) initState
    [epoch + 10] 42078208 ⟨0, epoch + 10⟩ [] (by decide) (by decide)
    (by decide) (by decide)

/-- C9: constructing a `SnowflakeIdGenerator` with a datacenterId or
workerId that is negative or greater than 31 fails immediately with a
configuration error, and construction with both values in `0..31`
succeeds. -/
theorem constructor_validates_node_identity (dc w : ℤ) :
    (SnowflakeIdGenerator.mk? dc w = .ok ⟨dc, w⟩ ↔
      0 ≤ dc ∧ dc ≤ 31 ∧ 0 ≤ w ∧ w ≤ 31) ∧
    ((∃ e, SnowflakeIdGenerator.mk? dc w = .error e) ↔
      (dc < 0 ∨ 31 < dc ∨ w < 0 ∨ 31 < w)) := by
  unfold SnowflakeIdGenerator.mk?
  rw [maxDatacenterId_eq, maxWorkerId_eq]
  split_ifs with h1 h2
  · refine ⟨⟨fun hc => absurd hc (by simp), fun hb => by exfalso; omega⟩,
      ⟨fun _ => by omega, fun _ => ⟨_, rfl⟩⟩⟩
  · refine ⟨⟨fun hc => absurd hc (by simp), fun hb => by exfalso; omega⟩,
      ⟨fun _ => by omega, fun _ => ⟨_, rfl⟩⟩⟩
  · refine ⟨⟨fun _ => by omega, fun _ => rfl⟩,
      ⟨fun he => ?_, fun hb => by exfalso; omega⟩⟩
    obtain ⟨e, he⟩ := he
    exact absurd he (by simp)

/-! ### Slug generation (slugify.ts, lines 10-36) -/

/-- Modelled from the spec: the external `slugify` npm library call in
`generateSlug` (options `lower`, `strict`, `locale en`, `trim`,
replacement `"-"`); the library itself is not part of this repository.
Per §4.2 step 1 of the design: lowercase, strip to a restricted
character set, collapse whitespace and punctuation runs to a single
separator, and trim leading and trailing separators. -/
def slugifyLib (title : String) : String :=
  String.intercalate "-"
    (((((title.data.map Char.toLower).splitOnP fun c => !c.isAlphanum).map
      String.mk).filter fun s => s ≠ ""))

/-- `generateSlug(title, suffix?)`: slugify the title and append the
suffix after a hyphen when one is given; a JavaScript-falsy suffix
(absent, or the empty string) leaves the base slug unchanged. -/
def generateSlug (title : String) (suffix : Option String) : String :=
  let baseSlug := slugifyLib title
  match suffix with
  | some s => if s = "" then baseSlug else baseSlug ++ "-" ++ s
  | none => baseSlug

/-- The digit alphabet of JavaScript's `toString(36)`: `0`-`9` then
`a`-`z`. -/
def base36DigitChar (d : ℕ) : Char :=
  if d < 10 then Char.ofNat (48 + d) else Char.ofNat (87 + d)

/-- Accumulator loop producing the base-36 digits of `n`, most
significant first. -/
def toBase36Aux (n : ℕ) (acc : List Char) : List Char :=
  if h : n = 0 then acc
  else toBase36Aux (n / 36) (base36DigitChar (n % 36) :: acc)
termination_by n
decreasing_by exact Nat.div_lt_self (Nat.pos_of_ne_zero h) (by omega)

/-- `n.toString(36)` for a natural number: the disambiguator
`Date.now().toString(36)` used by `generateUniqueSlug`. -/
def toBase36 (n : ℕ) : String :=
  if n = 0 then "0" else String.mk (toBase36Aux n [])

/-- `generateUniqueSlug(title)` invoked when `Date.now()` is `now`: the
slug of the title with the base-36 encoding of `now` appended. -/
def generateUniqueSlug (title : String) (now : ℕ) : String :=
  generateSlug title (some (toBase36 now))

/-! ### The bounded slug-retry loops (CrawlSite.service.ts) -/

/-- `const maxSlugAttempts = 5` in every retry loop of
CrawlSite.service.ts. -/
def maxSlugAttempts : ℕ := 5

/-- The retry loop
`while (await slugExists(slug) && slugAttempts < maxSlugAttempts) { slug = generateUniqueSlug(title); slugAttempts++; }`
shared by `initializeCrawl`, `modifyCrawl`, `crawlCategory` and
`updateCategory` (each with its own scoping of the existence check).
`candidates k` is the slug the `(k+1)`-th `generateUniqueSlug` call
produces; `slugExists` is the external store's answer for a candidate.
Returns the final slug, the final attempt counter, and the number of
existence-check round-trips performed (one per evaluation of the loop
condition). -/
def slugLoop (slugExists : String → Bool) (candidates : ℕ → String)
    (slug : String) (slugAttempts : ℕ) : String × ℕ × ℕ :=
  if h : slugExists slug = true ∧ slugAttempts < maxSlugAttempts then
    let r := slugLoop slugExists candidates
      (candidates (slugAttempts + 1)) (slugAttempts + 1)
    (r.1, r.2.1, r.2.2 + 1)
  else
    (slug, slugAttempts, 1)
termination_by maxSlugAttempts - slugAttempts
decreasing_by omega

/-- Steps 3-4 of `initializeCrawl` (and the analogous block of
`modifyCrawl`): generate an initial candidate, run the retry loop, and
throw when the attempt budget was exhausted; otherwise the final slug
is used. -/
def resolveSlug (slugExists : String → Bool) (candidates : ℕ → String) :
    Except String String :=
  let r := slugLoop slugExists candidates (candidates 0) 0
  if maxSlugAttempts ≤ r.2.1 then
    .error "Failed to generate unique slug. Please try a different title."
  else
    .ok r.1

/-- How many existence-check round-trips one run of the
`initializeCrawl` retry loop performs. -/
def resolveChecks (slugExists : String → Bool) (candidates : ℕ → String) : ℕ :=
  (slugLoop slugExists candidates (candidates 0) 0).2.2

/-- Steps 4-5 of `crawlCategory`: every crawled title runs the retry
loop against the site-scoped existence check; a title whose attempt
budget is exhausted is logged (`console.warn`) and skipped
(`continue`), and the call fails only when no title survives.  Returns
the `(title, slug)` pairs queued for the batch insert. -/
def crawlCategorySlugs (slugExists : String → Bool)
    (candidates : String → ℕ → String) (categoryTitles : List String) :
    Except String (List (String × String)) :=
  let categoriesToCreate := categoryTitles.filterMap fun title =>
    let r := slugLoop slugExists (candidates title) (candidates title 0) 0
    if maxSlugAttempts ≤ r.2.1 then none
    else some (title, r.1)
  if categoriesToCreate = [] then
    .error "Failed to generate slugs for any category. Please try again."
  else
    .ok categoriesToCreate

/-! ### Properties of the retry loops -/

/-- When the store answers `true` for the first five candidates the
loop stops with the attempt counter at its maximum. -/
theorem slugLoop_exhausts (slugExists : String → Bool)
    (candidates : ℕ → String)
    (h : ∀ k, k < 5 → slugExists (candidates k) = true) :
    (slugLoop slugExists candidates (candidates 0) 0).2.1 = 5 := by
  have e0 := h 0 (by omega)
  have e1 := h 1 (by omega)
  have e2 := h 2 (by omega)
  have e3 := h 3 (by omega)
  have e4 := h 4 (by omega)
  simp [slugLoop, maxSlugAttempts, e0, e1, e2, e3, e4]

/-- C3: if the existence check reports `true` for the first four
generated candidates and `false` for the fifth, the resolve succeeds
and returns the fifth candidate; if it reports `true` for the first
five candidates, the resolve fails with the slug-exhaustion error and
returns no slug. -/
theorem resolveSlug_attempt_budget (slugExists : String → Bool)
    (candidates : ℕ → String) :
    ((∀ k, k < 4 → slugExists (candidates k) = true) →
      slugExists (candidates 4) = false →
      resolveSlug slugExists candidates = .ok (candidates 4)) ∧
    ((∀ k, k < 5 → slugExists (candidates k) = true) →
      resolveSlug slugExists candidates =
        .error "Failed to generate unique slug. Please try a different title.") := by
  constructor
  · intro htrue hfalse
    have e0 := htrue 0 (by omega)
    have e1 := htrue 1 (by omega)
    have e2 := htrue 2 (by omega)
    have e3 := htrue 3 (by omega)
    simp [resolveSlug, slugLoop, maxSlugAttempts, e0, e1, e2, e3, hfalse]
  · intro htrue
    have hx := slugLoop_exhausts slugExists candidates htrue
    simp [resolveSlug, maxSlugAttempts, hx]

theorem resolveSlug_attempt_budget_witness :
    resolveSlug (fun s => decide (s.length < 4))
        (fun k => String.mk (List.replicate k 'a')) =
      .ok (String.mk (List.replicate 4 'a')) ∧
    resolveSlug (fun _ => true) (fun k => String.mk (List.replicate k 'a')) =
      .error "Failed to generate unique slug. Please try a different title." :=
  ⟨(resolveSlug_attempt_budget (fun s => decide (s.length < 4))
      (fun k => String.mk (List.replicate k 'a'))).1 (by decide) (by decide),
   (resolveSlug_attempt_budget (fun _ => true)
      (fun k => String.mk (List.replicate k 'a'))).2 (by decide)⟩

/-- The retry loop performs at most `6 - slugAttempts` further
existence checks once `slugAttempts` attempts have been recorded. -/
theorem slugLoop_checks_le (slugExists : String → Bool)
    (candidates : ℕ → String) :
    ∀ (k slugAttempts : ℕ) (slug : String),
      maxSlugAttempts - slugAttempts ≤ k →
      (slugLoop slugExists candidates slug slugAttempts).2.2 ≤ k + 1 := by
  intro k
  induction k with
  | zero =>
      intro a slug h
      rw [slugLoop.eq_def, dif_neg]
      rintro ⟨-, hlt⟩
      omega
  | succ k ih =>
      intro a slug h
      rw [slugLoop.eq_def]
      by_cases hc : slugExists slug = true ∧ a < maxSlugAttempts
      · rw [dif_pos hc]
        have hrec := ih (a + 1) (candidates (a + 1)) (by omega)
        show (slugLoop slugExists candidates (candidates (a + 1)) (a + 1)).2.2 + 1 ≤
          k + 1 + 1
        omega
      · rw [dif_neg hc]
        show 1 ≤ k + 1 + 1
        omega

/-- C4 counterexample: with a store that reports every candidate as
existing, one run of the `initializeCrawl` retry loop performs six
existence-check round-trips, not five — the loop evaluates the
existence check before testing the attempt counter. -/
theorem resolveChecks_counterexample :
    resolveChecks (fun _ => true) (fun _ => "x") = 6 := by
  simp [resolveChecks, slugLoop, maxSlugAttempts]

/-- C4 (amended): every run of the slug-resolution retry loop performs
at most six existence-check round-trips: one per loop-condition
evaluation, and the condition is evaluated once more after the fifth
attempt has been recorded. -/
theorem resolveChecks_bound (slugExists : String → Bool)
    (candidates : ℕ → String) :
    resolveChecks slugExists candidates ≤ 6 := by
  have h := slugLoop_checks_le slugExists candidates 5 0 (candidates 0)
    (by decide)
  simpa [resolveChecks] using h

/-- C5 counterexample: in `crawlCategory`, a title whose slug budget is
exhausted is skipped and the call still succeeds with the remaining
titles — the exhaustion is logged and swallowed, not returned. -/
theorem crawlCategorySlugs_counterexample :
    crawlCategorySlugs (fun s => s == "t1") (fun title _ => title)
        ["t1", "t2"] = .ok [("t2", "t2")] := by
  have hb1 : (("t1" : String) == "t1") = true := rfl
  have hb2 : (("t2" : String) == "t1") = false := rfl
  simp [crawlCategorySlugs, slugLoop, maxSlugAttempts, hb1, hb2]

/-- C5 (amended): `initializeCrawl` and `modifyCrawl` surface slug
exhaustion to the caller as an error; `crawlCategory` logs and skips an
individual exhausted title and fails only when every crawled title
exhausts its budget. -/
theorem slug_exhaustion_propagation :
    (∀ (slugExists : String → Bool) (candidates : ℕ → String),
      (∀ k, k < 5 → slugExists (candidates k) = true) →
      resolveSlug slugExists candidates =
        .error "Failed to generate unique slug. Please try a different title.") ∧
    (∀ (slugExists : String → Bool) (candidates : String → ℕ → String)
      (categoryTitles : List String),
      (∀ title ∈ categoryTitles, ∀ k, k < 5 →
        slugExists (candidates title k) = true) →
      crawlCategorySlugs slugExists candidates categoryTitles =
        .error "Failed to generate slugs for any category. Please try again.") := by
  constructor
  · intro slugExists candidates htrue
    have hx := slugLoop_exhausts slugExists candidates htrue
    simp [resolveSlug, maxSlugAttempts, hx]
  · intro slugExists candidates categoryTitles htrue
    have hnone : (categoryTitles.filterMap fun title =>
        let r := slugLoop slugExists (candidates title) (candidates title 0) 0
        if maxSlugAttempts ≤ r.2.1 then none
        else some (title, r.1)) = [] := by
      rw [List.filterMap_eq_nil_iff]
      intro t ht
      have hx := slugLoop_exhausts slugExists (candidates t) (htrue t ht)
      simp [hx, maxSlugAttempts]
    simp only [crawlCategorySlugs, hnone]
    rfl

theorem slug_exhaustion_propagation_witness :
    resolveSlug (fun _ => true) (fun _ => "x") =
      .error "Failed to generate unique slug. Please try a different title." ∧
    crawlCategorySlugs (fun _ => true) (fun _ _ => "x") ["t"] =
      .error "Failed to generate slugs for any category. Please try again." :=
  ⟨slug_exhaustion_propagation.1 (fun _ => true) (fun _ => "x") (by decide),
   slug_exhaustion_propagation.2 (fun _ => true) (fun _ _ => "x") ["t"]
     (by decide)⟩

/-! ### Shape of the generated slug (C10) -/

/-- `toBase36Aux` never shrinks its accumulator. -/
theorem toBase36Aux_length (n : ℕ) :
    ∀ acc : List Char, acc.length ≤ (toBase36Aux n acc).length := by
  induction n using Nat.strong_induction_on with
  | _ n ih =>
      intro acc
      rw [toBase36Aux.eq_def]
      by_cases h : n = 0
      · rw [dif_pos h]
      · rw [dif_neg h]
        have hrec := ih (n / 36) (Nat.div_lt_self (Nat.pos_of_ne_zero h) (by omega))
          (base36DigitChar (n % 36) :: acc)
        simp at hrec
        omega

/-- The base-36 rendering of a natural number is never empty. -/
theorem toBase36_ne_empty (n : ℕ) : toBase36 n ≠ "" := by
  by_cases h : n = 0
  · simp [toBase36, h]
  · rw [toBase36, if_neg h, toBase36Aux.eq_def, dif_neg h]
    intro heq
    have hdata : toBase36Aux (n / 36) [base36DigitChar (n % 36)] = [] := by
      have h0 : ("" : String) = String.mk [] := rfl
      rw [h0] at heq
      injection heq
    have hlen := toBase36Aux_length (n / 36) [base36DigitChar (n % 36)]
    rw [hdata] at hlen
    simp at hlen

/-- C10: `generateUniqueSlug` returns `transform(title) ++ "-" ++
base36(now)`; for the title `"Example Site"` the token begins with
`"example-site-"`; and with an empty store the resolution loop returns
the first candidate unchanged. -/
theorem generateUniqueSlug_shape :
    (∀ (title : String) (now : ℕ),
      generateUniqueSlug title now = slugifyLib title ++ "-" ++ toBase36 now) ∧
    (∀ now : ℕ,
      generateUniqueSlug "Example Site" now = "example-site-" ++ toBase36 now) ∧
    (∀ candidates : ℕ → String,
      resolveSlug (fun _ => false) candidates = .ok (candidates 0)) := by
  have hshape : ∀ (title : String) (now : ℕ),
      generateUniqueSlug title now = slugifyLib title ++ "-" ++ toBase36 now := by
    intro title now
    simp [generateUniqueSlug, generateSlug, toBase36_ne_empty now]
  refine ⟨hshape, fun now => ?_, fun candidates => ?_⟩
  · rw [hshape "Example Site" now]
    have hex : slugifyLib "Example Site" ++ "-" = "example-site-" := by decide
    rw [hex]
  · simp [resolveSlug, slugLoop, maxSlugAttempts]

end Crawler
